import Mathlib

/-!
Verification of the title reservation / activation scheduler core of the
ARC-S1021-titles repository (src/db_utils.py, src/main.py, src/web_routes.py).

Modelling conventions (shallow embedding):
  * Timestamps are modelled as `Int` seconds since the epoch, always in UTC
    (the source canonicalizes every datetime to UTC).  `normalize_slot_dt`
    (second/microsecond zeroing) becomes truncation to the minute.
    ISO slot-key strings (`iso_slot_key_naive`) are injective encodings of
    such canonical timestamps and are inverted by `parse_iso_utc`, so slot
    keys are modelled directly by the canonical timestamps they encode.
  * SQLAlchemy query results become pure functions over an in-memory list of
    rows; a raised `ValueError` becomes an error value returned alongside the
    unchanged store (an exception aborts the function before any commit).
  * Python `or` on strings (falsy = empty) is `pyOr`; `None` string values
    are modelled by `""`.
  * The legacy JSON mirror (`state['schedules']`, `state['titles']`,
    `state['activated_slots']`) that the scheduler loop operates on is
    modelled explicitly as `LegacyState` with association lists.
-/

namespace Titles

/-- Python `f"{n:02d}"` for a nonnegative number. -/
def two (n : Nat) : String := if n < 10 then "0" ++ toString n else toString n

/-- db_utils.compute_slots.  The argument models the result of Python
`int(shift_hours)`: `none` when the conversion raises (non-integer input),
`some n` otherwise.  Mirrors the fallback chain: conversion failure -> 12,
non-positive -> 12, non-divisor of 24 -> 12; then
`[f"{h:02d}:00" for h in range(0, 24, sh)]`. -/
def compute_slots (shift_hours : Option Int) : List String :=
  let sh0 : Int := shift_hours.getD 12
  let sh1 : Int := if sh0 ≤ 0 then 12 else sh0
  let sh2 : Int := if 24 % sh1 ≠ 0 then 12 else sh1
  let s : Nat := sh2.toNat
  (List.range ((24 + s - 1) / s)).map (fun i => two (i * s) ++ ":00")

/-- Python whitespace as matched by `\s` in the coordinate regular expression
and stripped by `str.strip()` (ASCII range; exotic unicode whitespace is not
modelled). -/
def isPyWs (c : Char) : Bool :=
  c = ' ' || c = '\t' || c = '\n' || c = '\r' || c = '\x0b' || c = '\x0c'

/-- Value of a string of decimal digits. -/
def digitsToNat (cs : List Char) : Nat :=
  cs.foldl (fun a c => a * 10 + (c.toNat - '0'.toNat)) 0

/-- Python `int(s)` on a string: surrounding whitespace, an optional sign and
a nonempty run of decimal digits (digit-group underscores are not modelled).
Returns `none` when the conversion raises `ValueError`. -/
def pyIntOfStr (s : String) : Option Int :=
  match (s.data.dropWhile isPyWs).reverse.dropWhile isPyWs |>.reverse with
  | [] => none
  | c :: cs =>
    if c = '-' then
      if cs ≠ [] ∧ cs.all Char.isDigit then some (-(digitsToNat cs : Int)) else none
    else if c = '+' then
      if cs ≠ [] ∧ cs.all Char.isDigit then some ((digitsToNat cs : Int)) else none
    else
      if (c :: cs).all Char.isDigit then some ((digitsToNat (c :: cs) : Int)) else none

/-- Python `str.strip()` restricted to the modelled whitespace characters. -/
def pyStrip (s : String) : String :=
  ⟨(s.data.dropWhile isPyWs).reverse.dropWhile isPyWs |>.reverse⟩

/-- db_utils.get_shift_hours.  The argument is the persisted value of the
`shift_hours` Setting row: `none` when the row is missing, `some v` for a
stored string `v`.  Always called with the default of 12. -/
def get_shift_hours (row : Option String) : Int :=
  match row with
  | none => 12
  | some v =>
    if pyStrip v = "" then 12
    else
      match pyIntOfStr v with
      | none => 12
      | some hours => if hours < 1 ∨ 72 < hours then 12 else hours

/-- main.normalize_slot_dt: truncate a UTC timestamp (seconds) to the minute
(`replace(second=0, microsecond=0)`). -/
def canon (t : Int) : Int := 60 * (t / 60)

/-- Python `dt.strftime("%H:%M")` for a UTC timestamp in seconds. -/
def fmtHHMM (t : Int) : String :=
  let m : Nat := ((t / 60) % 1440).toNat
  two (m / 60) ++ ":" ++ two (m % 60)

/-- Python `a or b` for strings (the empty string is falsy). -/
def pyOr (a b : String) : String := if a = "" then b else a

/-- re.fullmatch of the coordinate pattern `\s*\d+\s*:\s*\d+\s*`. -/
def coordsMatch (s : String) : Bool :=
  let cs := s.data.dropWhile isPyWs
  let d1 := cs.takeWhile Char.isDigit
  let r1 := (cs.dropWhile Char.isDigit).dropWhile isPyWs
  match r1 with
  | ':' :: r3 =>
    let r4 := r3.dropWhile isPyWs
    let d2 := r4.takeWhile Char.isDigit
    let r6 := (r4.dropWhile Char.isDigit).dropWhile isPyWs
    decide (d1 ≠ []) && decide (d2 ≠ []) && decide (r6 = [])
  | _ => false

end Titles

namespace Titles

/-- Keys of TITLES_CATALOG in main.py, in insertion order. -/
def ORDERED_TITLES : List String :=
  ["Guardian of Harmony", "Guardian of Air", "Guardian of Water", "Guardian of Earth",
   "Guardian of Fire", "Architect", "General", "Governor", "Prefect"]

/-- REQUESTABLE from main.py: every catalog title except Guardian of Harmony. -/
def REQUESTABLE : List String :=
  ORDERED_TITLES.filter (fun t => t ≠ "Guardian of Harmony")

/-- Row of the reservation table (models.Reservation).  The legacy `slot_ts`
text mirror always encodes the same instant as `slot_dt` (the writer keeps
them in sync and the startup backfill normalizes legacy rows), so only
`slot_dt` is carried. -/
structure Reservation where
  title_name : String
  ign : String
  coords : String
  slot_dt : Int
  deriving DecidableEq, Repr

/-- Distinct error kinds raised (as ValueError messages) by
main._reserve_slot_core, in the spec's naming. -/
inductive ReserveErr where
  | pastTime
  | invalidSlot
  | invalidCoords
  | slotTaken (ign : String)
  deriving DecidableEq, Repr

/-- main._reserve_slot_core, the validation chain and the idempotent DB write
(step 1).  The legacy JSON mirror (step 2) and the webhook/Airtable
side-effects (step 3) are external sinks outside the modelled store (spec
sections 1 and 9 treat them as collaborators to be collapsed).  A raised
ValueError is returned as `some err` with the store unchanged. -/
def reserve_slot_core (db : List Reservation) (shift_hours now : Int)
    (title_name ign coords0 : String) (start_dt : Int) :
    Option ReserveErr × List Reservation :=
  if start_dt ≤ now then (some .pastTime, db)
  else
    let allowed := compute_slots (some shift_hours)
    if fmtHHMM start_dt ∈ allowed then
      let coords := pyStrip (pyOr coords0 "-")
      if coords ≠ "-" ∧ coordsMatch coords = false then (some .invalidCoords, db)
      else
        let slot_dt := canon start_dt
        match db.find? (fun r => decide (r.title_name = title_name ∧ r.slot_dt = slot_dt)) with
        | some existing =>
          if existing.ign ≠ ign ∨ pyOr coords "-" ≠ pyOr existing.coords "-" then
            (some (.slotTaken existing.ign), db)
          else (none, db)
        | none =>
          (none, db ++ [{ title_name := title_name, ign := ign,
                          coords := pyOr coords "-", slot_dt := slot_dt }])
    else (some .invalidSlot, db)

/-- Days since 1970-01-01 of the civil date y-m-d (Howard Hinnant's
days_from_civil, as computed by Python's datetime). -/
def daysFromCivil (y m d : Int) : Int :=
  let y2 := if m ≤ 2 then y - 1 else y
  let era := (if 0 ≤ y2 then y2 else y2 - 399) / 400
  let yoe := y2 - era * 400
  let mp := (m + 9) % 12
  let doy := (153 * mp + 2) / 5 + d - 1
  let doe := yoe * 365 + yoe / 4 - yoe / 100 + doy
  era * 146097 + doe - 719468

/-- Gregorian leap-year test. -/
def isLeap (y : Int) : Bool :=
  decide (y % 4 = 0 ∧ (y % 100 ≠ 0 ∨ y % 400 = 0))

/-- Length of a month. -/
def daysInMonth (y m : Int) : Int :=
  if m = 2 then (if isLeap y then 29 else 28)
  else if m = 4 ∨ m = 6 ∨ m = 9 ∨ m = 11 then 30 else 31

/-- Modelled `datetime.strptime(f"{date} {time}", "%Y-%m-%d %H:%M")` followed
by `replace(tzinfo=UTC)`, returning epoch seconds; `none` models the
ValueError branch.  Only the zero-padded four-two-two digit form is
modelled. -/
def parseDateTimeUTC (date_str time_str : String) : Option Int :=
  match date_str.data, time_str.data with
  | [a, b, c, d, '-', e, f, '-', g, h], [i, j, ':', k, l] =>
    if ([a, b, c, d, e, f, g, h, i, j, k, l]).all Char.isDigit then
      let y : Int := digitsToNat [a, b, c, d]
      let mo : Int := digitsToNat [e, f]
      let da : Int := digitsToNat [g, h]
      let ho : Int := digitsToNat [i, j]
      let mi : Int := digitsToNat [k, l]
      if 1 ≤ mo ∧ mo ≤ 12 ∧ 1 ≤ da ∧ da ≤ daysInMonth y mo ∧ ho ≤ 23 ∧ mi ≤ 59 then
        some (daysFromCivil y mo da * 86400 + ho * 3600 + mi * 60)
      else none
    else none
  | _, _ => none

/-- Outcomes of the web booking route, one per flash/return path. -/
inductive BookOutcome where
  | missingFields
  | notRequestable
  | badDateTime
  | coreErr (e : ReserveErr)
  | booked
  deriving DecidableEq, Repr

/-- web_routes.book_slot: field presence, the requestable check, the datetime
parse, then the shared writer reserve_slot_core — in the source's order. -/
def book_slot (db : List Reservation) (shift_hours now : Int)
    (title0 ign0 coords0 date0 time0 : String) : BookOutcome × List Reservation :=
  let title_name := pyStrip title0
  let ign := pyStrip ign0
  let coords := pyStrip coords0
  let date_str := pyStrip date0
  let time_str := pyStrip time0
  if title_name = "" ∨ ign = "" ∨ date_str = "" ∨ time_str = "" ∨ coords = "" then
    (.missingFields, db)
  else if title_name ∉ REQUESTABLE then (.notRequestable, db)
  else
    match parseDateTimeUTC date_str time_str with
    | none => (.badDateTime, db)
    | some slot_start =>
      match reserve_slot_core db shift_hours now title_name ign coords slot_start with
      | (some e, db2) => (.coreErr e, db2)
      | (none, db2) => (.booked, db2)

/-- Row of the active_title table (models.ActiveTitle); `expiry_at = none`
is the non-expiring case. -/
structure ActiveTitle where
  title_name : String
  holder : String
  claim_at : Int
  expiry_at : Option Int
  deriving DecidableEq, Repr

/-- The two durable stores touched by the cancellation route. -/
structure DbState where
  reservations : List Reservation
  active : List ActiveTitle
  deriving DecidableEq, Repr

/-- Outcomes of the admin cancellation route, one per flash/return path. -/
inductive ReleaseOutcome where
  | missingFields
  | badDateTime
  | notFound
  | released (alsoLive : Bool)
  deriving DecidableEq, Repr

/-- web_routes.admin_release_reservation (the cancellation path): field check,
datetime parse, lookup of the reservation by (title, slot), deletion, and the
optional cascade deleting a live assignment with the same holder and claim
time.  The source's fallback lookup by the legacy `slot_ts` mirror coincides
with the primary `slot_dt` lookup (the mirror encodes the same instant) and
is collapsed into it.  The source never compares the slot's start time with
the current time, so this function takes no clock. -/
def admin_release_reservation (s : DbState)
    (title0 date0 time0 : String) (also_release_live : Bool) :
    ReleaseOutcome × DbState :=
  let title := pyStrip title0
  let date_str := pyStrip date0
  let time_str := pyStrip time0
  if title = "" ∨ date_str = "" ∨ time_str = "" then (.missingFields, s)
  else
    match parseDateTimeUTC date_str time_str with
    | none => (.badDateTime, s)
    | some start_dt =>
      match s.reservations.find? (fun r => decide (r.title_name = title ∧ r.slot_dt = start_dt)) with
      | none => (.notFound, s)
      | some res =>
        let s1 : DbState :=
          { s with reservations :=
              s.reservations.eraseP (fun r => decide (r.title_name = title ∧ r.slot_dt = start_dt)) }
        if also_release_live then
          match s1.active.find? (fun a => decide (a.title_name = title)) with
          | some row =>
            if row.holder = res.ign ∧ row.claim_at = start_dt then
              (.released true,
               { s1 with active := s1.active.eraseP (fun a => decide (a.title_name = title)) })
            else (.released false, s1)
          | none => (.released false, s1)
        else (.released false, s1)

end Titles

namespace Titles

/-- Holder dict stored in the legacy titles map by activate_slot / assign. -/
structure Holder where
  name : String
  coords : String
  discord_id : Int
  deriving DecidableEq, Repr

/-- Value of one entry of the legacy `state['titles']` map. -/
structure TitleState where
  holder : Option Holder
  claim_date : Option Int
  expiry_date : Option Int
  deriving DecidableEq, Repr

/-- Entry of `state['schedules'][title]` (the dict form the current writer
produces; bare-string legacy entries are not modelled). -/
structure SchedEntry where
  ign : String
  coords : String
  deriving DecidableEq, Repr

/-- Legacy JSON state operated on by the scheduler loop.  Python dicts are
association lists; the slot-key strings are the canonical timestamps they
encode.  Timestamp values stored in `claim_date` / `expiry_date` are the
parsed instants (ISO round-tripping is the identity of the model). -/
structure LegacyState where
  titles : List (String × TitleState)
  schedules : List (String × List (Int × SchedEntry))
  activated : List (String × List Int)
  deriving DecidableEq, Repr

/-- First-match association lookup (Python dict read). -/
def alookup {α : Type} (l : List (String × α)) (n : String) : Option α :=
  match l with
  | [] => none
  | p :: r => if p.1 = n then some p.2 else alookup r n

/-- Python in-place update of an existing key (`d[k].update(...)`): rewrite
the stored value; when the key is absent — where the source would raise
KeyError — this is a no-op, so theorems carry presence hypotheses. -/
def aupdate {α : Type} (l : List (String × α)) (n : String) (v : α) : List (String × α) :=
  l.map (fun p => if p.1 = n then (p.1, v) else p)

/-- Python dict assignment `d[k] = v`: overwrite when the key exists, append
otherwise. -/
def aset {α : Type} (l : List (String × α)) (n : String) (v : α) : List (String × α) :=
  if (alookup l n).isSome then aupdate l n v
  else l ++ [(n, v)]

/-- Truthiness of `activated.get(title, {}).get(slot_key)`. -/
def isActivated (a : List (String × List Int)) (n : String) (k : Int) : Bool :=
  decide (k ∈ (alookup a n).getD [])

/-- main.activate_slot (the legacy JSON path the scheduler writes):
overwrite the title's holder / claim date / expiry date and mark the slot
key consumed in activated_slots.  The expiry is `start + shift_hours` hours,
or never for Guardian of Harmony. -/
def activate_slot (shift_hours : Int) (s : LegacyState)
    (title_name ign : String) (start_dt : Int) : LegacyState :=
  let end_dt := start_dt + shift_hours * 3600
  let nt : TitleState :=
    { holder := some { name := ign, coords := "-", discord_id := 0 },
      claim_date := some start_dt,
      expiry_date := if title_name = "Guardian of Harmony" then none else some end_dt }
  let already := (alookup s.activated title_name).getD []
  let already2 := if canon start_dt ∈ already then already else already ++ [canon start_dt]
  { s with
    titles := aupdate s.titles title_name nt,
    activated := aset s.activated title_name already2 }

/-- Expiry test of main._scan_expired_titles for one titles entry: a holder
is present, an expiry date is stored, and it has passed. -/
def expiredB (now : Int) (v : TitleState) : Bool :=
  v.holder.isSome &&
    (match v.expiry_date with
     | some e => decide (e ≤ now)
     | none => false)

/-- main._scan_expired_titles. -/
def scan_expired_titles (now : Int) (s : LegacyState) : List String :=
  (s.titles.filter (fun p => expiredB now p.2)).map (fun p => p.1)

/-- main._release_title_blocking: clear holder, claim date and expiry date of
a known title; unknown titles are left untouched (the source returns False). -/
def release_title_blocking (s : LegacyState) (title_name : String) : LegacyState :=
  if (alookup s.titles title_name).isSome then
    { s with titles :=
        aupdate s.titles title_name { holder := none, claim_date := none, expiry_date := none } }
  else s

/-- Expiry pass of one iteration of main.title_check_loop: scan, then release
every expired title. -/
def expire_pass (now : Int) (s : LegacyState) : LegacyState :=
  (scan_expired_titles now s).foldl release_title_blocking s

/-- Promotion worklist of main.title_check_loop: every scheduled slot whose
start has arrived and whose key is not in activated_slots. -/
def to_activate (now : Int) (s : LegacyState) : List (String × String × Int) :=
  s.schedules.flatMap (fun p =>
    p.2.filterMap (fun q =>
      if decide (q.1 ≤ now) && !(isActivated s.activated p.1 q.1) then
        some (p.1, (q.2.ign, q.1))
      else none))

/-- One iteration of main.title_check_loop: the expiry pass, then activation
of each collected due slot in order. -/
def title_check_tick (shift_hours now : Int) (s : LegacyState) : LegacyState :=
  let s1 := expire_pass now s
  (to_activate now s1).foldl (fun st a => activate_slot shift_hours st a.1 a.2.1 a.2.2) s1

end Titles

namespace Titles

/-- C4: for every integer h with 1 <= h and 24 % h == 0, compute_slots
returns the ordered list of exactly 24/h entries, starting at "00:00" and
spaced h hours apart, each formatted "HH:MM". -/
theorem C4_compute_slots_divisor (h : Int) (h1 : 1 ≤ h) (h2 : 24 % h = 0) :
    compute_slots (some h)
        = (List.range ((24 / h).toNat)).map (fun i => two (i * h.toNat) ++ ":00") ∧
      (compute_slots (some h)).length = (24 / h).toNat ∧
      (compute_slots (some h)).head? = some "00:00" := by
  have hd : h ∣ 24 := Int.dvd_of_emod_eq_zero h2
  have hle : h ≤ 24 := Int.le_of_dvd (by norm_num) hd
  interval_cases h <;> revert h2 <;> decide

/-- Witness for C4 at h = 6. -/
theorem C4_witness :
    compute_slots (some 6)
        = (List.range (((24 : Int) / 6).toNat)).map (fun i => two (i * (6 : Int).toNat) ++ ":00") ∧
      (compute_slots (some 6)).length = ((24 : Int) / 6).toNat ∧
      (compute_slots (some 6)).head? = some "00:00" :=
  C4_compute_slots_divisor 6 (by decide) (by decide)

/-- C5: for every input that is not a positive divisor of 24 — a non-divisor,
a non-positive number, or a non-integer (`none`) — compute_slots returns the
same result as for 12, namely ["00:00", "12:00"]; consequently the grid is
non-empty for every input. -/
theorem C5_compute_slots_fallback (x : Option Int)
    (hx : x = none ∨ ∃ h, x = some h ∧ (h ≤ 0 ∨ 24 % h ≠ 0)) :
    compute_slots x = compute_slots (some 12) ∧
      compute_slots x = ["00:00", "12:00"] ∧
      ∀ y : Option Int, compute_slots y ≠ [] := by
  have hnonempty : ∀ y : Option Int, compute_slots y ≠ [] := by
    intro y
    cases y with
    | none => decide
    | some h =>
      simp only [compute_slots, Option.getD]
      split_ifs with hle hnd hnd
      · decide
      · decide
      · decide
      · push_neg at hnd
        have hd : h ∣ 24 := Int.dvd_of_emod_eq_zero hnd
        have h24 : h ≤ 24 := Int.le_of_dvd (by norm_num) hd
        have h1 : 1 ≤ h.toNat := by omega
        have h2 : h.toNat ≤ 24 := by omega
        simp only [Ne, List.map_eq_nil_iff, List.range_eq_nil]
        have : 0 < (24 + h.toNat - 1) / h.toNat := Nat.div_pos (by omega) (by omega)
        omega
  have key : ∀ h : Int, h ≤ 0 ∨ 24 % h ≠ 0 → compute_slots (some h) = ["00:00", "12:00"] := by
    intro h hh
    simp only [compute_slots, Option.getD]
    split_ifs with hle hnd hnd
    · decide
    · decide
    · decide
    · exfalso
      rcases hh with a | a
      · exact hle a
      · exact hnd a
  refine ⟨?_, ?_, hnonempty⟩
  · rcases hx with rfl | ⟨h, rfl, hh⟩
    · decide
    · rw [key h hh]; decide
  · rcases hx with rfl | ⟨h, rfl, hh⟩
    · decide
    · exact key h hh

/-- Witness for C5 at the non-divisor 5. -/
theorem C5_witness :
    compute_slots (some 5) = compute_slots (some 12) ∧
      compute_slots (some 5) = ["00:00", "12:00"] ∧
      ∀ y : Option Int, compute_slots y ≠ [] :=
  C5_compute_slots_fallback (some 5) (Or.inr ⟨5, rfl, Or.inr (by decide)⟩)

/-- C7: a reservation request whose start time equals the current time
exactly, or is earlier, is rejected with the past-time error: only start
times strictly in the future are accepted. -/
theorem C7_reserve_not_strictly_future (db : List Reservation) (shift_hours now : Int)
    (title_name ign coords : String) (start_dt : Int) (h : start_dt ≤ now) :
    reserve_slot_core db shift_hours now title_name ign coords start_dt
      = (some .pastTime, db) := by
  unfold reserve_slot_core
  rw [if_pos h]

/-- Witness for C7 with start time equal to the current time. -/
theorem C7_witness :
    reserve_slot_core [] 12 86400 "Architect" "Bob" "100:200" 86400
      = (some .pastTime, []) :=
  C7_reserve_not_strictly_future [] 12 86400 "Architect" "Bob" "100:200" 86400 (by decide)

end Titles

namespace Titles

/-- Helper: a string that Python int() converts successfully is not
whitespace-only. -/
theorem pyIntOfStr_some_strip_ne (v : String) (n : Int) (hv : pyIntOfStr v = some n) :
    pyStrip v ≠ "" := by
  intro hcontra
  have hempty : ((v.data.dropWhile isPyWs).reverse.dropWhile isPyWs).reverse = [] := by
    have : (pyStrip v).data = "".data := by rw [hcontra]
    exact this
  unfold pyIntOfStr at hv
  rw [hempty] at hv
  simp at hv

/-- C9: get_shift_hours never raises: a missing row, an empty or
whitespace-only value, a non-numeric value, or a numeric value outside
[1, 72] all yield the default 12, a stored integer inside [1, 72] is
returned as is, and the result is always in [1, 72]. -/
theorem C9_get_shift_hours_safe :
    (∀ row : Option String, 1 ≤ get_shift_hours row ∧ get_shift_hours row ≤ 72) ∧
      get_shift_hours none = 12 ∧
      (∀ v : String, pyStrip v = "" → get_shift_hours (some v) = 12) ∧
      (∀ v : String, pyIntOfStr v = none → get_shift_hours (some v) = 12) ∧
      (∀ (v : String) (n : Int), pyIntOfStr v = some n → 1 ≤ n → n ≤ 72 →
        get_shift_hours (some v) = n) ∧
      (∀ (v : String) (n : Int), pyIntOfStr v = some n → (n < 1 ∨ 72 < n) →
        get_shift_hours (some v) = 12) := by
  refine ⟨?_, rfl, ?_, ?_, ?_, ?_⟩
  · intro row
    cases row with
    | none => simp [get_shift_hours]
    | some v =>
      simp only [get_shift_hours]
      split_ifs with h1
      · omega
      · split
        · omega
        · split_ifs with h2
          · omega
          · push_neg at h2; omega
  · intro v hv
    simp [get_shift_hours, hv]
  · intro v hv
    simp only [get_shift_hours]
    split_ifs with h1
    · rfl
    · rw [hv]
  · intro v n hv h1 h2
    have hne := pyIntOfStr_some_strip_ne v n hv
    simp only [get_shift_hours]
    rw [if_neg hne, hv]
    simp only []
    rw [if_neg (by omega)]
  · intro v n hv hrange
    have hne := pyIntOfStr_some_strip_ne v n hv
    simp only [get_shift_hours]
    rw [if_neg hne, hv]
    simp only []
    rw [if_pos (by omega)]

/-- Witness for C9 on concrete stored values. -/
theorem C9_witness :
    (1 ≤ get_shift_hours (some "100") ∧ get_shift_hours (some "100") ≤ 72) ∧
      get_shift_hours none = 12 ∧
      get_shift_hours (some "  ") = 12 ∧
      get_shift_hours (some "abc") = 12 ∧
      get_shift_hours (some " 24 ") = 24 ∧
      get_shift_hours (some "100") = 12 :=
  ⟨C9_get_shift_hours_safe.1 (some "100"),
   C9_get_shift_hours_safe.2.1,
   C9_get_shift_hours_safe.2.2.1 "  " (by decide),
   C9_get_shift_hours_safe.2.2.2.1 "abc" (by decide),
   C9_get_shift_hours_safe.2.2.2.2.1 " 24 " 24 (by decide) (by decide) (by decide),
   C9_get_shift_hours_safe.2.2.2.2.2 "100" 100 (by decide) (by decide)⟩


end Titles

namespace Titles

/-- Helper: shape of reserve_slot_core once all validations pass and a
reservation already occupies (title, canonical slot). -/
theorem reserve_core_found_eq (db : List Reservation) (shift_hours now : Int)
    (t i c0 : String) (k : Int) (ex : Reservation)
    (hfut : now < k) (hgrid : fmtHHMM k ∈ compute_slots (some shift_hours))
    (hc : ¬(pyStrip (pyOr c0 "-") ≠ "-" ∧ coordsMatch (pyStrip (pyOr c0 "-")) = false))
    (hex : db.find? (fun r => decide (r.title_name = t ∧ r.slot_dt = canon k)) = some ex) :
    reserve_slot_core db shift_hours now t i c0 k
      = (if ex.ign ≠ i ∨ pyOr (pyStrip (pyOr c0 "-")) "-" ≠ pyOr ex.coords "-" then
           (some (.slotTaken ex.ign), db)
         else (none, db)) := by
  simp only [reserve_slot_core]
  rw [if_neg (by omega : ¬ k ≤ now), if_pos hgrid, if_neg hc, hex]

/-- Helper: shape of reserve_slot_core once all validations pass and the
(title, canonical slot) pair is free. -/
theorem reserve_core_notfound_eq (db : List Reservation) (shift_hours now : Int)
    (t i c0 : String) (k : Int)
    (hfut : now < k) (hgrid : fmtHHMM k ∈ compute_slots (some shift_hours))
    (hc : ¬(pyStrip (pyOr c0 "-") ≠ "-" ∧ coordsMatch (pyStrip (pyOr c0 "-")) = false))
    (hex : db.find? (fun r => decide (r.title_name = t ∧ r.slot_dt = canon k)) = none) :
    reserve_slot_core db shift_hours now t i c0 k
      = (none, db ++ [{ title_name := t, ign := i,
                        coords := pyOr (pyStrip (pyOr c0 "-")) "-", slot_dt := canon k }]) := by
  simp only [reserve_slot_core]
  rw [if_neg (by omega : ¬ k ≤ now), if_pos hgrid, if_neg hc, hex]

/-- C1: when a Reservation already exists for (title, canonical time) and the
request passes the earlier validations, a request whose claimant name and
contact both match succeeds leaving the store untouched, any other request
fails with the slot-taken error naming the existing claimant (store
untouched), and two identical successful calls leave exactly one stored
Reservation for that key (given the store's uniqueness invariant). -/
theorem C1_reserve_existing (db : List Reservation) (shift_hours now : Int)
    (title_name ign coords0 : String) (start_dt : Int) (ex : Reservation)
    (hfuture : now < start_dt)
    (hgrid : fmtHHMM start_dt ∈ compute_slots (some shift_hours))
    (hcoords : ¬(pyStrip (pyOr coords0 "-") ≠ "-" ∧ coordsMatch (pyStrip (pyOr coords0 "-")) = false))
    (huniq : db.countP (fun r => decide (r.title_name = title_name ∧ r.slot_dt = canon start_dt)) ≤ 1)
    (hex : db.find? (fun r => decide (r.title_name = title_name ∧ r.slot_dt = canon start_dt)) = some ex) :
    (ex.ign = ign ∧ pyOr (pyStrip (pyOr coords0 "-")) "-" = pyOr ex.coords "-" →
        reserve_slot_core db shift_hours now title_name ign coords0 start_dt = (none, db)) ∧
    (¬(ex.ign = ign ∧ pyOr (pyStrip (pyOr coords0 "-")) "-" = pyOr ex.coords "-") →
        reserve_slot_core db shift_hours now title_name ign coords0 start_dt
          = (some (.slotTaken ex.ign), db)) ∧
    (∀ db2, reserve_slot_core db shift_hours now title_name ign coords0 start_dt = (none, db2) →
        reserve_slot_core db2 shift_hours now title_name ign coords0 start_dt = (none, db2) ∧
        db2.countP (fun r => decide (r.title_name = title_name ∧ r.slot_dt = canon start_dt)) = 1) := by
  have hred := reserve_core_found_eq db shift_hours now title_name ign coords0 start_dt ex
      hfuture hgrid hcoords hex
  refine ⟨?_, ?_, ?_⟩
  · intro hm
    rw [hred, if_neg (by simp [hm.1, hm.2])]
  · intro hm
    rw [hred, if_pos (by by_contra hcon; push_neg at hcon; exact hm ⟨hcon.1, hcon.2⟩)]
  · intro db2 hsucc
    rw [hred] at hsucc
    by_cases hcond : (ex.ign ≠ ign ∨ pyOr (pyStrip (pyOr coords0 "-")) "-" ≠ pyOr ex.coords "-")
    · rw [if_pos hcond] at hsucc
      exact absurd hsucc (by simp)
    · rw [if_neg hcond] at hsucc
      injection hsucc with h1 h2
      subst h2
      constructor
      · rw [hred, if_neg hcond]
      · have hmem := List.mem_of_find?_eq_some hex
        have hp := List.find?_some hex
        have hpos : 0 < db.countP
            (fun r => decide (r.title_name = title_name ∧ r.slot_dt = canon start_dt)) :=
          List.countP_pos_iff.mpr ⟨ex, hmem, hp⟩
        omega

/-- Witness for C1: Bob retries his own slot (no-op success), Carl is
rejected with Bob's name, and exactly one row remains. -/
theorem C1_witness :
    reserve_slot_core [⟨"Architect", "Bob", "100:200", 86400⟩] 12 100 "Architect" "Bob" "100:200" 86400
      = (none, [⟨"Architect", "Bob", "100:200", 86400⟩]) ∧
    reserve_slot_core [⟨"Architect", "Bob", "100:200", 86400⟩] 12 100 "Architect" "Carl" "200:300" 86400
      = (some (.slotTaken "Bob"), [⟨"Architect", "Bob", "100:200", 86400⟩]) ∧
    ([⟨"Architect", "Bob", "100:200", 86400⟩] : List Reservation).countP
        (fun r => decide (r.title_name = "Architect" ∧ r.slot_dt = canon 86400)) = 1 := by
  have hBob := C1_reserve_existing [⟨"Architect", "Bob", "100:200", 86400⟩] 12 100
      "Architect" "Bob" "100:200" 86400 ⟨"Architect", "Bob", "100:200", 86400⟩
      (by decide) (by decide) (by decide) (by decide) (by decide)
  have hCarl := C1_reserve_existing [⟨"Architect", "Bob", "100:200", 86400⟩] 12 100
      "Architect" "Carl" "200:300" 86400 ⟨"Architect", "Bob", "100:200", 86400⟩
      (by decide) (by decide) (by decide) (by decide) (by decide)
  have h1 := hBob.1 (by decide)
  exact ⟨h1, hCarl.2.1 (by decide), (hBob.2.2 _ h1).2⟩


end Titles

namespace Titles

/-- C3 counterexample: through the booking pipeline, a request for the
non-requestable title "Guardian of Harmony" with a start time in the past
(2020-01-01 00:00, current time 2024-01-01 00:00) reports the
not-requestable error, not the past-time error the claimed check order
demands. -/
theorem C3_counterexample :
    (parseDateTimeUTC "2020-01-01" "00:00" = some 1577836800 ∧
      (1577836800 : Int) < 1704067200) ∧
    book_slot [] 12 1704067200 "Guardian of Harmony" "Bob" "100:200" "2020-01-01" "00:00"
      = (.notRequestable, []) ∧
    book_slot [] 12 1704067200 "Guardian of Harmony" "Bob" "100:200" "2020-01-01" "00:00"
      ≠ (.coreErr .pastTime, []) := by decide

/-- C3 amended: within the shared reservation core the checks run in the
order past-time, slot-grid, coordinates, first failure winning and each a
distinct error kind; the requestable-title check is performed by the caller
before the core runs, so a non-requestable title is reported as
not-requestable even when the start time is also in the past. -/
theorem C3_check_order (db : List Reservation) (shift_hours now start_dt : Int)
    (title_name ign coords : String) :
    (start_dt ≤ now →
        reserve_slot_core db shift_hours now title_name ign coords start_dt
          = (some .pastTime, db)) ∧
    (now < start_dt → fmtHHMM start_dt ∉ compute_slots (some shift_hours) →
        reserve_slot_core db shift_hours now title_name ign coords start_dt
          = (some .invalidSlot, db)) ∧
    (now < start_dt → fmtHHMM start_dt ∈ compute_slots (some shift_hours) →
        pyStrip (pyOr coords "-") ≠ "-" → coordsMatch (pyStrip (pyOr coords "-")) = false →
        reserve_slot_core db shift_hours now title_name ign coords start_dt
          = (some .invalidCoords, db)) ∧
    (∀ t i c d tm : String, pyStrip t ≠ "" → pyStrip i ≠ "" → pyStrip c ≠ "" →
        pyStrip d ≠ "" → pyStrip tm ≠ "" → pyStrip t ∉ REQUESTABLE →
        book_slot db shift_hours now t i c d tm = (.notRequestable, db)) := by
  refine ⟨?_, ?_, ?_, ?_⟩
  · intro h
    unfold reserve_slot_core
    rw [if_pos h]
  · intro h1 h2
    simp only [reserve_slot_core]
    rw [if_neg (by omega : ¬ start_dt ≤ now), if_neg h2]
  · intro h1 h2 h3 h4
    simp only [reserve_slot_core]
    rw [if_neg (by omega : ¬ start_dt ≤ now), if_pos h2, if_pos ⟨h3, h4⟩]
  · intro t i c d tm h1 h2 h3 h4 h5 h6
    simp only [book_slot]
    rw [if_neg (by simp [h1, h2, h3, h4, h5]), if_pos h6]

/-- Witness for C3 instantiating each conjunct of the amended order. -/
theorem C3_witness :
    reserve_slot_core [] 12 200 "Architect" "Bob" "100:200" 100 = (some .pastTime, []) ∧
    reserve_slot_core [] 12 100 "Architect" "Bob" "100:200" (86400 + 3600)
      = (some .invalidSlot, []) ∧
    reserve_slot_core [] 12 100 "Architect" "Bob" "abc" 86400 = (some .invalidCoords, []) ∧
    book_slot [] 12 100 "Guardian of Harmony" "Bob" "100:200" "2030-01-01" "00:00"
      = (.notRequestable, []) :=
  ⟨(C3_check_order [] 12 200 100 "Architect" "Bob" "100:200").1 (by decide),
   (C3_check_order [] 12 100 (86400 + 3600) "Architect" "Bob" "100:200").2.1 (by decide) (by decide),
   (C3_check_order [] 12 100 86400 "Architect" "Bob" "abc").2.2.1 (by decide) (by decide)
     (by decide) (by decide),
   (C3_check_order [] 12 100 86400 "Architect" "Bob" "abc").2.2.2 "Guardian of Harmony" "Bob"
     "100:200" "2030-01-01" "00:00" (by decide) (by decide) (by decide) (by decide) (by decide)
     (by decide)⟩

/-- C10 counterexample: a whitespace-only contact is not normalized to the
sentinel: `(" " or "-")` keeps the truthy whitespace string, strip turns it
into `""`, and validation rejects it with the invalid-coordinates error
instead of storing "-". -/
theorem C10_counterexample :
    reserve_slot_core [] 12 100 "Architect" "Bob" " " 86400 = (some .invalidCoords, []) := by
  decide

/-- C10 amended: a missing/empty contact (modelled by `""`) is normalized to
the sentinel "-" before validation and storage — it passes validation, is
stored as "-", and retrying with `""` against a stored "-" for the same
claimant is a no-op success; a contact consisting only of whitespace,
however, fails with the invalid-coordinates error. -/
theorem C10_contact_normalization (db : List Reservation) (shift_hours now start_dt : Int)
    (title_name ign : String)
    (hfuture : now < start_dt)
    (hgrid : fmtHHMM start_dt ∈ compute_slots (some shift_hours)) :
    (db.find? (fun r => decide (r.title_name = title_name ∧ r.slot_dt = canon start_dt)) = none →
        reserve_slot_core db shift_hours now title_name ign "" start_dt
          = (none, db ++ [{ title_name := title_name, ign := ign, coords := "-",
                            slot_dt := canon start_dt }])) ∧
    (∀ ex, db.find? (fun r => decide (r.title_name = title_name ∧ r.slot_dt = canon start_dt))
          = some ex →
        ex.ign = ign → ex.coords = "-" →
        reserve_slot_core db shift_hours now title_name ign "" start_dt = (none, db)) ∧
    (∀ c : String, c ≠ "" → pyStrip c = "" →
        reserve_slot_core db shift_hours now title_name ign c start_dt
          = (some .invalidCoords, db)) := by
  refine ⟨?_, ?_, ?_⟩
  · intro hnone
    rw [reserve_core_notfound_eq db shift_hours now title_name ign "" start_dt hfuture hgrid
        (by decide) hnone]
    have hco : pyOr (pyStrip (pyOr "" "-")) "-" = "-" := by decide
    rw [hco]
  · intro ex hex hign hcoords
    rw [reserve_core_found_eq db shift_hours now title_name ign "" start_dt ex hfuture hgrid
        (by decide) hex]
    rw [if_neg (by push_neg; exact ⟨hign, by rw [hcoords]; decide⟩)]
  · intro c hc1 hc2
    have e1 : pyOr c "-" = c := by simp [pyOr, hc1]
    simp only [reserve_slot_core]
    rw [if_neg (by omega : ¬ start_dt ≤ now), if_pos hgrid,
        if_pos (by rw [e1, hc2]; exact ⟨by decide, by decide⟩)]

/-- Witness for C10 on concrete empty and whitespace-only contacts. -/
theorem C10_witness :
    reserve_slot_core [] 12 100 "Architect" "Bob" "" 86400
      = (none, [{ title_name := "Architect", ign := "Bob", coords := "-",
                  slot_dt := canon 86400 }]) ∧
    reserve_slot_core [⟨"Architect", "Bob", "-", 86400⟩] 12 100 "Architect" "Bob" "" 86400
      = (none, [⟨"Architect", "Bob", "-", 86400⟩]) ∧
    reserve_slot_core [] 12 100 "Architect" "Bob" "  " 86400 = (some .invalidCoords, []) :=
  ⟨(C10_contact_normalization [] 12 100 86400 "Architect" "Bob" (by decide) (by decide)).1 rfl,
   (C10_contact_normalization [⟨"Architect", "Bob", "-", 86400⟩] 12 100 86400 "Architect" "Bob"
      (by decide) (by decide)).2.1 ⟨"Architect", "Bob", "-", 86400⟩ (by decide) rfl rfl,
   (C10_contact_normalization [] 12 100 86400 "Architect" "Bob" (by decide) (by decide)).2.2
     "  " (by decide) (by decide)⟩

end Titles

namespace Titles

/-- C8 counterexample: cancelling a reservation whose slot started in the
past (slot 2020-01-01 00:00, long before any present instant such as
2024-01-01 00:00) succeeds and deletes the stored reservation; the route
takes no clock at all and no already-started error exists in the code. -/
theorem C8_counterexample :
    ((1577836800 : Int) < 1704067200) ∧
    admin_release_reservation
        ⟨[⟨"Architect", "Bob", "-", 1577836800⟩], []⟩ "Architect" "2020-01-01" "00:00" false
      = (.released false, ⟨[], []⟩) := by decide

/-- C8 amended: cancellation deletes the targeted reservation regardless of
whether its slot has started (the route performs no start-time check, so an
in-progress or past slot is cancelled exactly like a future one), and
cancellation of a nonexistent reservation reports not-found without raising
and leaves the store unchanged. -/
theorem C8_cancel_behavior (s : DbState) (title0 date0 time0 : String) (b : Bool) (start_dt : Int)
    (ht : ¬(pyStrip title0 = "" ∨ pyStrip date0 = "" ∨ pyStrip time0 = ""))
    (hp : parseDateTimeUTC (pyStrip date0) (pyStrip time0) = some start_dt) :
    (s.reservations.find?
        (fun r => decide (r.title_name = pyStrip title0 ∧ r.slot_dt = start_dt)) = none →
       admin_release_reservation s title0 date0 time0 b = (.notFound, s)) ∧
    (∀ res, s.reservations.find?
        (fun r => decide (r.title_name = pyStrip title0 ∧ r.slot_dt = start_dt)) = some res →
       (admin_release_reservation s title0 date0 time0 b).2.reservations
          = s.reservations.eraseP
              (fun r => decide (r.title_name = pyStrip title0 ∧ r.slot_dt = start_dt)) ∧
       ∃ c, (admin_release_reservation s title0 date0 time0 b).1 = .released c) := by
  constructor
  · intro h
    simp only [admin_release_reservation, if_neg ht, hp, h]
  · intro res h
    simp only [admin_release_reservation, if_neg ht, hp, h]
    cases b with
    | false => exact ⟨rfl, false, rfl⟩
    | true =>
      cases hact : s.active.find? (fun a => decide (a.title_name = pyStrip title0)) with
      | none =>
        simp only [hact]
        exact ⟨rfl, false, rfl⟩
      | some row =>
        simp only [hact]
        by_cases hcond : (row.holder = res.ign ∧ row.claim_at = start_dt)
        · rw [if_pos hcond]
          exact ⟨rfl, true, rfl⟩
        · rw [if_neg hcond]
          exact ⟨rfl, false, rfl⟩

/-- Witness for C8: a not-found cancellation and a successful cancellation
of an already-started slot. -/
theorem C8_witness :
    admin_release_reservation ⟨[], []⟩ "Architect" "2020-01-01" "00:00" false
      = (.notFound, ⟨[], []⟩) ∧
    (admin_release_reservation
        ⟨[⟨"Architect", "Bob", "-", 1577836800⟩], []⟩ "Architect" "2020-01-01" "00:00" true
      ).2.reservations = [] := by
  have h1 := (C8_cancel_behavior ⟨[], []⟩ "Architect" "2020-01-01" "00:00" false 1577836800
      (by decide) (by decide)).1 (by decide)
  have h2 := (C8_cancel_behavior ⟨[⟨"Architect", "Bob", "-", 1577836800⟩], []⟩
      "Architect" "2020-01-01" "00:00" true 1577836800
      (by decide) (by decide)).2 ⟨"Architect", "Bob", "-", 1577836800⟩ (by decide)
  exact ⟨h1, by rw [h2.1]; decide⟩

end Titles

namespace Titles

/-- Unfolding lemma for alookup on the empty association list. -/
theorem alookup_nil {α : Type} (n : String) : alookup ([] : List (String × α)) n = none := rfl

/-- Unfolding lemma for alookup on a cons. -/
theorem alookup_cons {α : Type} (p : String × α) (r : List (String × α)) (n : String) :
    alookup (p :: r) n = if p.1 = n then some p.2 else alookup r n := rfl

/-- Unfolding lemma for aupdate on the empty association list. -/
theorem aupdate_nil {α : Type} (n : String) (v : α) : aupdate ([] : List (String × α)) n v = [] := rfl

/-- Unfolding lemma for aupdate on a cons. -/
theorem aupdate_cons {α : Type} (p : String × α) (r : List (String × α)) (n : String) (v : α) :
    aupdate (p :: r) n v = (if p.1 = n then (p.1, v) else p) :: aupdate r n v := rfl

/-- A successful lookup exhibits a member pair. -/
theorem alookup_mem {α : Type} {l : List (String × α)} {n : String} {v : α}
    (h : alookup l n = some v) : (n, v) ∈ l := by
  induction l with
  | nil => simp [alookup_nil] at h
  | cons p r ih =>
    rw [alookup_cons] at h
    by_cases hp : p.1 = n
    · rw [if_pos hp] at h
      injection h with h
      have hpv : p = (n, v) := by
        cases p with | mk a b => simp_all
      rw [← hpv]
      exact List.mem_cons_self _ _
    · rw [if_neg hp] at h
      exact List.mem_cons_of_mem _ (ih h)

/-- A failed lookup means no pair carries the key. -/
theorem alookup_eq_none_forall {α : Type} {l : List (String × α)} {n : String}
    (h : alookup l n = none) : ∀ p ∈ l, p.1 ≠ n := by
  induction l with
  | nil => simp
  | cons p r ih =>
    rw [alookup_cons] at h
    by_cases hp : p.1 = n
    · rw [if_pos hp] at h; exact absurd h (by simp)
    · rw [if_neg hp] at h
      intro q hq
      rcases List.mem_cons.mp hq with rfl | hq
      · exact hp
      · exact ih h q hq

/-- Lookup of the updated key. -/
theorem alookup_aupdate_self {α : Type} (l : List (String × α)) (n : String) (v : α) :
    alookup (aupdate l n v) n = (alookup l n).map (fun _ => v) := by
  induction l with
  | nil => rfl
  | cons p r ih =>
    rw [aupdate_cons]
    by_cases hp : p.1 = n
    · rw [if_pos hp, alookup_cons, alookup_cons, if_pos hp, if_pos hp]
      rfl
    · rw [if_neg hp, alookup_cons, alookup_cons, if_neg hp, if_neg hp]
      exact ih

/-- Updates do not disturb other keys. -/
theorem alookup_aupdate_other {α : Type} (l : List (String × α)) (m n : String) (v : α)
    (hmn : m ≠ n) :
    alookup (aupdate l m v) n = alookup l n := by
  induction l with
  | nil => rfl
  | cons p r ih =>
    rw [aupdate_cons]
    by_cases hp : p.1 = m
    · rw [if_pos hp, alookup_cons, alookup_cons]
      rw [if_neg (by rw [hp]; exact hmn), if_neg (by rw [hp]; exact hmn)]
      exact ih
    · rw [if_neg hp, alookup_cons, alookup_cons]
      by_cases hq : p.1 = n
      · rw [if_pos hq, if_pos hq]
      · rw [if_neg hq, if_neg hq]
        exact ih

/-- Lookup skips a prefix free of the key. -/
theorem alookup_append_left_none {α : Type} {l1 : List (String × α)} {n : String}
    (h : alookup l1 n = none) (l2 : List (String × α)) :
    alookup (l1 ++ l2) n = alookup l2 n := by
  induction l1 with
  | nil => rfl
  | cons p r ih =>
    rw [alookup_cons] at h
    by_cases hp : p.1 = n
    · rw [if_pos hp] at h; exact absurd h (by simp)
    · rw [if_neg hp] at h
      rw [List.cons_append, alookup_cons, if_neg hp]
      exact ih h

/-- Updates preserve key presence. -/
theorem alookup_isSome_aupdate {α : Type} (l : List (String × α)) (m n : String) (v : α) :
    (alookup (aupdate l m v) n).isSome = (alookup l n).isSome := by
  by_cases hmn : m = n
  · subst hmn
    rw [alookup_aupdate_self]
    cases alookup l m <;> rfl
  · rw [alookup_aupdate_other l m n v hmn]

/-- Assignment stores the value under the key. -/
theorem alookup_aset_self {α : Type} (l : List (String × α)) (n : String) (v : α) :
    alookup (aset l n v) n = some v := by
  unfold aset
  by_cases h : (alookup l n).isSome
  · rw [if_pos h, alookup_aupdate_self]
    cases hl : alookup l n with
    | none => rw [hl] at h; simp at h
    | some w => rfl
  · rw [if_neg h]
    have hnone : alookup l n = none := by
      cases hl : alookup l n with
      | none => rfl
      | some w => rw [hl] at h; simp at h
    rw [alookup_append_left_none hnone, alookup_cons, if_pos rfl]

/-- Assignment does not disturb other keys. -/
theorem alookup_aset_other {α : Type} (l : List (String × α)) (m n : String) (v : α)
    (hmn : m ≠ n) :
    alookup (aset l m v) n = alookup l n := by
  unfold aset
  by_cases h : (alookup l m).isSome
  · rw [if_pos h]
    exact alookup_aupdate_other l m n v hmn
  · rw [if_neg h]
    induction l with
    | nil => rw [List.nil_append, alookup_cons, alookup_nil, if_neg hmn]
    | cons p r ih =>
      rw [alookup_cons] at h
      by_cases hp : p.1 = m
      · rw [if_pos hp] at h; simp at h
      · rw [if_neg hp] at h
        rw [List.cons_append, alookup_cons, alookup_cons]
        by_cases hq : p.1 = n
        · rw [if_pos hq, if_pos hq]
        · rw [if_neg hq, if_neg hq]
          exact ih h

/-- A successful lookup splits the list at the first pair with the key. -/
theorem alookup_split {α : Type} {l : List (String × α)} {n : String} {v : α}
    (h : alookup l n = some v) :
    ∃ l1 l2, l = l1 ++ (n, v) :: l2 ∧ ∀ p ∈ l1, p.1 ≠ n := by
  induction l with
  | nil => simp [alookup_nil] at h
  | cons p r ih =>
    rw [alookup_cons] at h
    by_cases hp : p.1 = n
    · rw [if_pos hp] at h
      injection h with h
      refine ⟨[], r, ?_, by simp⟩
      have hpv : p = (n, v) := by
        cases p with | mk a b => simp_all
      simp [hpv]
    · rw [if_neg hp] at h
      obtain ⟨l1, l2, hl, hne⟩ := ih h
      refine ⟨p :: l1, l2, by simp [hl], ?_⟩
      intro q hq
      rcases List.mem_cons.mp hq with rfl | hq
      · exact hp
      · exact hne q hq

end Titles

namespace Titles

/-- Mapping a function that fixes every member is the identity. -/
theorem map_eq_self_of_forall {α : Type} {l : List α} {f : α → α}
    (h : ∀ a ∈ l, f a = a) : l.map f = l := by
  induction l with
  | nil => rfl
  | cons p r ih =>
    rw [List.map_cons, h p (List.mem_cons_self _ _),
        ih (fun a ha => h a (List.mem_cons_of_mem _ ha))]

/-- Mapping extensionally equal functions agree. -/
theorem map_func_ext {α β : Type} (l : List α) (f g : α → β) (h : ∀ a, f a = g a) :
    l.map f = l.map g :=
  congrArg l.map (funext h)

/-- Releasing a title leaves the schedules untouched. -/
theorem release_schedules (s : LegacyState) (m : String) :
    (release_title_blocking s m).schedules = s.schedules := by
  unfold release_title_blocking
  split <;> rfl

/-- Releasing a title leaves the activated slots untouched. -/
theorem release_activated (s : LegacyState) (m : String) :
    (release_title_blocking s m).activated = s.activated := by
  unfold release_title_blocking
  split <;> rfl

/-- Releasing rewrites exactly the pairs carrying the released title. -/
theorem release_titles_eq (s : LegacyState) (m : String) :
    (release_title_blocking s m).titles
      = s.titles.map (fun p => if p.1 = m
          then (p.1, ({ holder := none, claim_date := none, expiry_date := none } : TitleState))
          else p) := by
  unfold release_title_blocking
  by_cases h : (alookup s.titles m).isSome
  · rw [if_pos h]
    rfl
  · rw [if_neg h]
    have hnone : alookup s.titles m = none := by
      cases hl : alookup s.titles m with
      | none => rfl
      | some w => rw [hl] at h; simp at h
    have hfa := alookup_eq_none_forall hnone
    symm
    apply map_eq_self_of_forall
    intro p hp
    rw [if_neg (hfa p hp)]

/-- A sequence of releases clears exactly the listed titles. -/
theorem foldl_release_titles (L : List String) (s : LegacyState) :
    (L.foldl release_title_blocking s).titles
      = s.titles.map (fun p => if p.1 ∈ L
          then (p.1, ({ holder := none, claim_date := none, expiry_date := none } : TitleState))
          else p) := by
  induction L generalizing s with
  | nil =>
    rw [List.foldl_nil]
    symm
    apply map_eq_self_of_forall
    intro p hp
    rw [if_neg (by simp)]
  | cons m L' ih =>
    rw [List.foldl_cons, ih, release_titles_eq, List.map_map]
    apply map_func_ext
    intro p
    by_cases h1 : p.1 = m <;> by_cases h2 : p.1 ∈ L' <;>
      simp [Function.comp, h1, h2, List.mem_cons]

/-- A sequence of releases leaves the schedules untouched. -/
theorem foldl_release_schedules (L : List String) (s : LegacyState) :
    (L.foldl release_title_blocking s).schedules = s.schedules := by
  induction L generalizing s with
  | nil => rfl
  | cons m L' ih => rw [List.foldl_cons, ih, release_schedules]

/-- A sequence of releases leaves the activated slots untouched. -/
theorem foldl_release_activated (L : List String) (s : LegacyState) :
    (L.foldl release_title_blocking s).activated = s.activated := by
  induction L generalizing s with
  | nil => rfl
  | cons m L' ih => rw [List.foldl_cons, ih, release_activated]

/-- Lookup through a clear-the-listed-keys map. -/
theorem alookup_map_clearIf {α : Type} (l : List (String × α)) (L : List String) (c : α)
    (n : String) :
    alookup (l.map (fun p => if p.1 ∈ L then (p.1, c) else p)) n
      = (alookup l n).map (fun v => if n ∈ L then c else v) := by
  induction l with
  | nil => rfl
  | cons p r ih =>
    rw [List.map_cons]
    by_cases h1 : p.1 ∈ L <;> by_cases h2 : p.1 = n
    · rw [if_pos h1, alookup_cons, alookup_cons]
      subst h2
      rw [if_pos rfl, if_pos rfl]
      simp [h1]
    · rw [if_pos h1, alookup_cons, alookup_cons, if_neg h2, if_neg h2]
      exact ih
    · rw [if_neg h1, alookup_cons, alookup_cons]
      subst h2
      rw [if_pos rfl, if_pos rfl]
      simp [h1]
    · rw [if_neg h1, alookup_cons, alookup_cons, if_neg h2, if_neg h2]
      exact ih

/-- The expiry pass leaves the schedules untouched. -/
theorem expire_pass_schedules (now : Int) (s : LegacyState) :
    (expire_pass now s).schedules = s.schedules :=
  foldl_release_schedules _ s

/-- The expiry pass leaves the activated slots untouched. -/
theorem expire_pass_activated (now : Int) (s : LegacyState) :
    (expire_pass now s).activated = s.activated :=
  foldl_release_activated _ s

/-- Lookup after the expiry pass: cleared when scanned as expired,
unchanged otherwise. -/
theorem expire_pass_titles_alookup (now : Int) (s : LegacyState) (n : String) :
    alookup (expire_pass now s).titles n
      = (alookup s.titles n).map (fun v => if n ∈ scan_expired_titles now s
          then ({ holder := none, claim_date := none, expiry_date := none } : TitleState)
          else v) := by
  have h : (expire_pass now s).titles = s.titles.map (fun p =>
      if p.1 ∈ scan_expired_titles now s
      then (p.1, ({ holder := none, claim_date := none, expiry_date := none } : TitleState))
      else p) := foldl_release_titles _ s
  rw [h, alookup_map_clearIf]

/-- A held, expired title is scanned. -/
theorem mem_scan_of_expired {s : LegacyState} {now : Int} {n : String} {d : TitleState}
    (hd : alookup s.titles n = some d) (hexp : expiredB now d = true) :
    n ∈ scan_expired_titles now s := by
  unfold scan_expired_titles
  exact List.mem_map.mpr ⟨(n, d), List.mem_filter.mpr ⟨alookup_mem hd, hexp⟩, rfl⟩

/-- A held, expired titles entry puts its key in the scan list. -/
theorem mem_scan_of_pair {s : LegacyState} {now : Int} {q : String × TitleState}
    (hq : q ∈ s.titles) (hexp : expiredB now q.2 = true) :
    q.1 ∈ scan_expired_titles now s := by
  unfold scan_expired_titles
  exact List.mem_map.mpr ⟨q, List.mem_filter.mpr ⟨hq, hexp⟩, rfl⟩

/-- The expiry pass is idempotent: after one pass nothing is left to
expire. -/
theorem expire_pass_idem (now : Int) (s : LegacyState) :
    expire_pass now (expire_pass now s) = expire_pass now s := by
  have hscan : scan_expired_titles now (expire_pass now s) = [] := by
    unfold scan_expired_titles
    simp only [List.map_eq_nil_iff, List.filter_eq_nil_iff]
    intro p hp
    have htit : (expire_pass now s).titles = s.titles.map (fun q =>
        if q.1 ∈ scan_expired_titles now s
        then (q.1, ({ holder := none, claim_date := none, expiry_date := none } : TitleState))
        else q) := foldl_release_titles _ s
    rw [htit] at hp
    obtain ⟨q, hq, rfl⟩ := List.mem_map.mp hp
    by_cases h1 : q.1 ∈ scan_expired_titles now s
    · rw [if_pos h1]
      simp [expiredB]
    · rw [if_neg h1]
      intro hexp
      exact h1 (mem_scan_of_pair hq hexp)
  have hstep : expire_pass now (expire_pass now s)
      = (scan_expired_titles now (expire_pass now s)).foldl release_title_blocking
          (expire_pass now s) := rfl
  rw [hstep, hscan]
  rfl

end Titles

namespace Titles

/-- Activation leaves the schedules untouched. -/
theorem activate_schedules (sh : Int) (s : LegacyState) (m i : String) (k : Int) :
    (activate_slot sh s m i k).schedules = s.schedules := rfl

/-- Activation overwrites the activated title's entry with the new holder,
claim date and expiry. -/
theorem activate_titles_alookup_self (sh : Int) (s : LegacyState) (n i : String) (k : Int) :
    alookup (activate_slot sh s n i k).titles n
      = (alookup s.titles n).map (fun _ =>
          ({ holder := some { name := i, coords := "-", discord_id := 0 },
             claim_date := some k,
             expiry_date := if n = "Guardian of Harmony" then none
                            else some (k + sh * 3600) } : TitleState)) := by
  simp only [activate_slot]
  exact alookup_aupdate_self _ _ _

/-- Activation does not disturb other titles' entries. -/
theorem activate_titles_alookup_other (sh : Int) (s : LegacyState) (m i : String) (k : Int)
    (n : String) (h : m ≠ n) :
    alookup (activate_slot sh s m i k).titles n = alookup s.titles n := by
  simp only [activate_slot]
  exact alookup_aupdate_other _ _ _ _ h

/-- Activation marks the slot key consumed. -/
theorem activate_isActivated_self (sh : Int) (s : LegacyState) (n i : String) (k : Int) :
    isActivated (activate_slot sh s n i k).activated n (canon k) = true := by
  simp only [activate_slot, isActivated]
  rw [decide_eq_true_eq, alookup_aset_self, Option.getD_some]
  by_cases h : canon k ∈ (alookup s.activated n).getD []
  · rw [if_pos h]
    exact h
  · rw [if_neg h]
    exact List.mem_append_right _ (List.mem_singleton_self _)

/-- Activation does not disturb other titles' consumed slots. -/
theorem activate_isActivated_other (sh : Int) (s : LegacyState) (m i : String) (k : Int)
    (n : String) (k' : Int) (h : m ≠ n) :
    isActivated (activate_slot sh s m i k).activated n k' = isActivated s.activated n k' := by
  simp only [activate_slot, isActivated]
  rw [decide_eq_decide]
  rw [alookup_aset_other _ _ _ _ h]

/-- A sequence of activations avoiding a title leaves its entry alone. -/
theorem foldl_activate_titles_other (sh : Int) (l : List (String × String × Int))
    (s : LegacyState) (n : String) (h : ∀ x ∈ l, x.1 ≠ n) :
    alookup ((l.foldl (fun st a => activate_slot sh st a.1 a.2.1 a.2.2) s).titles) n
      = alookup s.titles n := by
  induction l generalizing s with
  | nil => rfl
  | cons a l' ih =>
    rw [List.foldl_cons, ih _ (fun x hx => h x (List.mem_cons_of_mem _ hx))]
    exact activate_titles_alookup_other _ _ _ _ _ _ (h a (List.mem_cons_self _ _))

/-- A sequence of activations avoiding a title leaves its consumed slots
alone. -/
theorem foldl_activate_isActivated_other (sh : Int) (l : List (String × String × Int))
    (s : LegacyState) (n : String) (k' : Int) (h : ∀ x ∈ l, x.1 ≠ n) :
    isActivated ((l.foldl (fun st a => activate_slot sh st a.1 a.2.1 a.2.2) s).activated) n k'
      = isActivated s.activated n k' := by
  induction l generalizing s with
  | nil => rfl
  | cons a l' ih =>
    rw [List.foldl_cons, ih _ (fun x hx => h x (List.mem_cons_of_mem _ hx))]
    exact activate_isActivated_other _ _ _ _ _ _ _ (h a (List.mem_cons_self _ _))

/-- A sequence of activations leaves the schedules untouched. -/
theorem foldl_activate_schedules (sh : Int) (l : List (String × String × Int))
    (s : LegacyState) :
    (l.foldl (fun st a => activate_slot sh st a.1 a.2.1 a.2.2) s).schedules = s.schedules := by
  induction l generalizing s with
  | nil => rfl
  | cons a l' ih => rw [List.foldl_cons, ih]; rfl

/-- The promotion worklist depends only on the schedules and the consumed
slots. -/
theorem to_activate_congr (now : Int) (s1 s2 : LegacyState)
    (h1 : s1.schedules = s2.schedules) (h2 : s1.activated = s2.activated) :
    to_activate now s1 = to_activate now s2 := by
  unfold to_activate
  rw [h1, h2]

/-- A worklist element comes from a due, unconsumed scheduled slot. -/
theorem of_mem_to_activate {now : Int} {s : LegacyState} {x : String × String × Int}
    (h : x ∈ to_activate now s) :
    ∃ p ∈ s.schedules, ∃ q ∈ p.2,
      (decide (q.1 ≤ now) && !(isActivated s.activated p.1 q.1)) = true ∧
      x = (p.1, q.2.ign, q.1) := by
  unfold to_activate at h
  obtain ⟨p, hp, hx⟩ := List.mem_flatMap.mp h
  obtain ⟨q, hq, hfq⟩ := List.mem_filterMap.mp hx
  by_cases hc : (decide (q.1 ≤ now) && !(isActivated s.activated p.1 q.1)) = true
  · rw [if_pos hc] at hfq
    injection hfq with hfq
    exact ⟨p, hp, q, hq, hc, hfq.symm⟩
  · rw [if_neg hc] at hfq
    simp at hfq

/-- A due, unconsumed scheduled slot is on the worklist. -/
theorem mem_to_activate_intro {now : Int} {s : LegacyState}
    {p : String × List (Int × SchedEntry)} {q : Int × SchedEntry}
    (hp : p ∈ s.schedules) (hq : q ∈ p.2)
    (hc : (decide (q.1 ≤ now) && !(isActivated s.activated p.1 q.1)) = true) :
    (p.1, q.2.ign, q.1) ∈ to_activate now s := by
  unfold to_activate
  exact List.mem_flatMap.mpr ⟨p, hp, List.mem_filterMap.mpr ⟨q, hq, by rw [if_pos hc]⟩⟩

/-- A scheduler tick never changes the schedules. -/
theorem tick_schedules (sh now : Int) (s : LegacyState) :
    (title_check_tick sh now s).schedules = s.schedules := by
  unfold title_check_tick
  rw [foldl_activate_schedules, expire_pass_schedules]

end Titles

namespace Titles

/-- When the worklist holds nothing for a title, a tick acts on it only
through the expiry pass. -/
theorem tick_titles_alookup_of_noact (sh now : Int) (s : LegacyState) (n : String)
    (hnoact : ∀ x ∈ to_activate now s, x.1 ≠ n) :
    alookup (title_check_tick sh now s).titles n = alookup (expire_pass now s).titles n := by
  simp only [title_check_tick]
  rw [to_activate_congr now _ _ (expire_pass_schedules now s) (expire_pass_activated now s)]
  exact foldl_activate_titles_other sh _ _ n hnoact

/-- When the worklist holds nothing for a title, a tick leaves its consumed
slots alone. -/
theorem tick_isActivated_of_noact (sh now : Int) (s : LegacyState) (n : String) (k' : Int)
    (hnoact : ∀ x ∈ to_activate now s, x.1 ≠ n) :
    isActivated (title_check_tick sh now s).activated n k' = isActivated s.activated n k' := by
  simp only [title_check_tick]
  rw [to_activate_congr now _ _ (expire_pass_schedules now s) (expire_pass_activated now s),
      foldl_activate_isActivated_other sh _ _ n k' hnoact, expire_pass_activated]

/-- A title absent from the worklist stays absent after the tick. -/
theorem tick_noact_next (sh now : Int) (s : LegacyState) (n : String)
    (hnoact : ∀ x ∈ to_activate now s, x.1 ≠ n) :
    ∀ x ∈ to_activate now (title_check_tick sh now s), x.1 ≠ n := by
  intro x hx hx1
  obtain ⟨p, hp, q, hq, hc, hxe⟩ := of_mem_to_activate hx
  have hp1 : p.1 = n := by rw [hxe] at hx1; exact hx1
  have hc' : (decide (q.1 ≤ now) && !(isActivated s.activated p.1 q.1)) = true := by
    rw [hp1, ← tick_isActivated_of_noact sh now s n q.1 hnoact, ← hp1]
    exact hc
  have hp' : p ∈ s.schedules := by
    rw [← tick_schedules sh now s]
    exact hp
  exact hnoact _ (mem_to_activate_intro hp' hq hc') hp1

/-- C6: an ActiveAssignment with a holder and a passed non-null expiry time
is released by the next scheduler tick — holder, claim time and expiry time
all cleared — and a second consecutive tick leaves the released entry
unchanged; the expiry pass as a whole is idempotent.  (The title is assumed
to have no pending promotion, which would legitimately re-occupy it in the
same tick.) -/
theorem C6_expiry_release (sh now : Int) (s : LegacyState) (n : String) (d : TitleState)
    (hd : alookup s.titles n = some d)
    (hholder : d.holder.isSome = true)
    (e : Int) (he : d.expiry_date = some e) (hnow : e ≤ now)
    (hnoact : ∀ x ∈ to_activate now s, x.1 ≠ n) :
    alookup (title_check_tick sh now s).titles n
        = some { holder := none, claim_date := none, expiry_date := none } ∧
    alookup (title_check_tick sh now (title_check_tick sh now s)).titles n
        = some { holder := none, claim_date := none, expiry_date := none } ∧
    expire_pass now (expire_pass now s) = expire_pass now s := by
  have hexp : expiredB now d = true := by
    simp [expiredB, hholder, he, hnow]
  have hscanmem : n ∈ scan_expired_titles now s := mem_scan_of_expired hd hexp
  have htick1 : alookup (title_check_tick sh now s).titles n
      = some { holder := none, claim_date := none, expiry_date := none } := by
    rw [tick_titles_alookup_of_noact sh now s n hnoact, expire_pass_titles_alookup, hd]
    simp [hscanmem]
  have hnoact2 := tick_noact_next sh now s n hnoact
  have htick2 : alookup (title_check_tick sh now (title_check_tick sh now s)).titles n
      = some { holder := none, claim_date := none, expiry_date := none } := by
    rw [tick_titles_alookup_of_noact sh now _ n hnoact2, expire_pass_titles_alookup, htick1]
    simp
  exact ⟨htick1, htick2, expire_pass_idem now s⟩

end Titles

namespace Titles

/-- Worklist entries carry the key of the schedule pair they come from. -/
theorem flatMap_worklist_keys (now : Int) (act : List (String × List Int))
    (L : List (String × List (Int × SchedEntry))) (n : String)
    (hL : ∀ p ∈ L, p.1 ≠ n) :
    ∀ x ∈ L.flatMap (fun p => p.2.filterMap (fun q =>
        if decide (q.1 ≤ now) && !(isActivated act p.1 q.1)
        then some (p.1, q.2.ign, q.1) else none)),
      x.1 ≠ n := by
  intro x hx
  obtain ⟨p, hp, hx2⟩ := List.mem_flatMap.mp hx
  obtain ⟨q, hq, hfq⟩ := List.mem_filterMap.mp hx2
  by_cases hcnd : (decide (q.1 ≤ now) && !(isActivated act p.1 q.1)) = true
  · rw [if_pos hcnd] at hfq
    injection hfq with hfq
    rw [← hfq]
    exact hL p hp
  · rw [if_neg hcnd] at hfq
    simp at hfq

/-- C2: a reservation whose canonical start time has arrived and which is
not yet consumed — the only due unconsumed slot of its title, per the
store's dict key-uniqueness — is promoted by one scheduler tick into the
active assignment: the holder becomes the claimant, claim time equals the
reservation's start time, expiry equals start time plus the configured
shift hours (or never for Guardian of Harmony), the slot is marked
consumed, and no later tick puts it back on the promotion worklist. -/
theorem C2_promotion (sh now : Int) (s : LegacyState) (n : String) (e : SchedEntry) (k : Int)
    (slots : List (Int × SchedEntry))
    (hkeys : (s.schedules.map Prod.fst).Nodup)
    (hsched : alookup s.schedules n = some slots)
    (hinner : (slots.map Prod.fst).Nodup)
    (hmem : (k, e) ∈ slots)
    (hk : k ≤ now)
    (hcanon : canon k = k)
    (hnotact : isActivated s.activated n k = false)
    (huniq : ∀ q ∈ slots, q.1 ≠ k → (now < q.1 ∨ isActivated s.activated n q.1 = true))
    (htitle : (alookup s.titles n).isSome = true) :
    alookup (title_check_tick sh now s).titles n
        = some { holder := some { name := e.ign, coords := "-", discord_id := 0 },
                 claim_date := some k,
                 expiry_date := if n = "Guardian of Harmony" then none
                                else some (k + sh * 3600) } ∧
    isActivated (title_check_tick sh now s).activated n k = true ∧
    (∀ (now2 : Int) (i2 : String), (n, i2, k) ∉ to_activate now2 (title_check_tick sh now s)) := by
  obtain ⟨L1, L2, hLsplit, hL1⟩ := alookup_split hsched
  have hL2 : ∀ p ∈ L2, p.1 ≠ n := by
    rw [hLsplit, List.map_append, List.map_cons] at hkeys
    have hnmem : n ∉ L2.map Prod.fst := (List.nodup_cons.mp (List.nodup_append.mp hkeys).2.1).1
    intro p hp hpn
    exact hnmem (List.mem_map.mpr ⟨p, hp, hpn⟩)
  -- the due slot is the unique worklist entry of its title
  have hslots : slots.filterMap (fun q =>
      if decide (q.1 ≤ now) && !(isActivated s.activated n q.1)
      then some (n, q.2.ign, q.1) else none) = [(n, e.ign, k)] := by
    have hfnone : ∀ q ∈ slots, q.1 ≠ k →
        (if decide (q.1 ≤ now) && !(isActivated s.activated n q.1)
         then some ((n : String), q.2.ign, q.1) else none) = none := by
      intro q hq hqk
      rcases huniq q hq hqk with h | h
      · rw [if_neg]
        intro hc
        rw [Bool.and_eq_true] at hc
        have := of_decide_eq_true hc.1
        omega
      · rw [if_neg]
        intro hc
        rw [Bool.and_eq_true] at hc
        have := hc.2
        rw [h] at this
        simp at this
    obtain ⟨S1, S2, hSsplit⟩ := List.append_of_mem hmem
    have hS1 : ∀ q ∈ S1, q.1 ≠ k := by
      rw [hSsplit, List.map_append, List.map_cons] at hinner
      have hdisj := (List.nodup_append.mp hinner).2.2
      intro q hq hqk
      exact hdisj (List.mem_map.mpr ⟨q, hq, hqk⟩) (List.mem_cons_self _ _)
    have hS2 : ∀ q ∈ S2, q.1 ≠ k := by
      rw [hSsplit, List.map_append, List.map_cons] at hinner
      have hnmem := (List.nodup_cons.mp (List.nodup_append.mp hinner).2.1).1
      intro q hq hqk
      exact hnmem (List.mem_map.mpr ⟨q, hq, hqk⟩)
    rw [hSsplit, List.filterMap_append, List.filterMap_cons]
    have h1 : S1.filterMap (fun q =>
        if decide (q.1 ≤ now) && !(isActivated s.activated n q.1)
        then some ((n : String), q.2.ign, q.1) else none) = [] := by
      rw [List.filterMap_eq_nil_iff]
      intro q hq
      exact hfnone q (by rw [hSsplit]; exact List.mem_append_left _ hq) (hS1 q hq)
    have h2 : S2.filterMap (fun q =>
        if decide (q.1 ≤ now) && !(isActivated s.activated n q.1)
        then some ((n : String), q.2.ign, q.1) else none) = [] := by
      rw [List.filterMap_eq_nil_iff]
      intro q hq
      exact hfnone q (by rw [hSsplit]; exact List.mem_append_right _ (List.mem_cons_of_mem _ hq))
        (hS2 q hq)
    have h3 : (if decide ((k, e).1 ≤ now) && !(isActivated s.activated n (k, e).1)
        then some ((n : String), (k, e).2.ign, (k, e).1) else none) = some (n, e.ign, k) := by
      rw [if_pos]
      rw [hnotact]
      simp [hk]
    rw [h1, h3, h2]
    rfl
  have hta : to_activate now s
      = (L1.flatMap (fun p => p.2.filterMap (fun q =>
          if decide (q.1 ≤ now) && !(isActivated s.activated p.1 q.1)
          then some (p.1, q.2.ign, q.1) else none)))
        ++ ((n, e.ign, k) ::
          (L2.flatMap (fun p => p.2.filterMap (fun q =>
            if decide (q.1 ≤ now) && !(isActivated s.activated p.1 q.1)
            then some (p.1, q.2.ign, q.1) else none)))) := by
    unfold to_activate
    rw [hLsplit]
    simp only [List.flatMap_append, List.flatMap_cons]
    rw [hslots, List.singleton_append]
  have hA := flatMap_worklist_keys now s.activated L1 n hL1
  have hB := flatMap_worklist_keys now s.activated L2 n hL2
  have hacts : to_activate now (expire_pass now s) = to_activate now s :=
    to_activate_congr now _ _ (expire_pass_schedules now s) (expire_pass_activated now s)
  -- evaluate the fold of the promotion pass at title n
  obtain ⟨d0, hd0⟩ := Option.isSome_iff_exists.mp htitle
  have hconc1 : alookup (title_check_tick sh now s).titles n
      = some { holder := some { name := e.ign, coords := "-", discord_id := 0 },
               claim_date := some k,
               expiry_date := if n = "Guardian of Harmony" then none
                              else some (k + sh * 3600) } := by
    simp only [title_check_tick]
    rw [hacts, hta]
    rw [List.foldl_append]
    simp only [List.foldl_cons]
    rw [foldl_activate_titles_other sh _ _ n hB]
    rw [activate_titles_alookup_self]
    rw [foldl_activate_titles_other sh _ _ n hA]
    rw [expire_pass_titles_alookup, hd0]
    rfl
  have hconc2 : isActivated (title_check_tick sh now s).activated n k = true := by
    simp only [title_check_tick]
    rw [hacts, hta]
    rw [List.foldl_append]
    simp only [List.foldl_cons]
    rw [foldl_activate_isActivated_other sh _ _ n k hB]
    have hself := activate_isActivated_self sh
      ((L1.flatMap (fun p => p.2.filterMap (fun q =>
          if decide (q.1 ≤ now) && !(isActivated s.activated p.1 q.1)
          then some (p.1, q.2.ign, q.1) else none))).foldl
        (fun st a => activate_slot sh st a.1 a.2.1 a.2.2) (expire_pass now s)) n e.ign k
    rw [hcanon] at hself
    exact hself
  refine ⟨hconc1, hconc2, ?_⟩
  intro now2 i2 hx
  obtain ⟨p, hp, q, hq, hc, hxe⟩ := of_mem_to_activate hx
  injection hxe with h1 h23
  injection h23 with h2 h3
  have hfalse : isActivated (title_check_tick sh now s).activated p.1 q.1 = false := by
    rw [Bool.and_eq_true] at hc
    have := hc.2
    cases hcc : isActivated (title_check_tick sh now s).activated p.1 q.1
    · rfl
    · rw [hcc] at this
      simp at this
  rw [← h1, ← h3] at hfalse
  rw [hconc2] at hfalse
  exact absurd hfalse (by simp)

end Titles

namespace Titles

/-- Witness for C2: one due reservation is promoted and consumed. -/
theorem C2_witness :
    alookup (title_check_tick 12 86400
        ⟨[("Architect", ⟨none, none, none⟩)],
         [("Architect", [(86400, ⟨"Bob", "1:2"⟩)])], []⟩).titles "Architect"
      = some { holder := some { name := "Bob", coords := "-", discord_id := 0 },
               claim_date := some 86400,
               expiry_date := if "Architect" = "Guardian of Harmony" then none
                              else some (86400 + 12 * 3600) } ∧
    isActivated (title_check_tick 12 86400
        ⟨[("Architect", ⟨none, none, none⟩)],
         [("Architect", [(86400, ⟨"Bob", "1:2"⟩)])], []⟩).activated "Architect" 86400 = true ∧
    (∀ (now2 : Int) (i2 : String), ("Architect", i2, 86400) ∉ to_activate now2
        (title_check_tick 12 86400
          ⟨[("Architect", ⟨none, none, none⟩)],
           [("Architect", [(86400, ⟨"Bob", "1:2"⟩)])], []⟩)) :=
  C2_promotion 12 86400
    ⟨[("Architect", ⟨none, none, none⟩)],
     [("Architect", [(86400, ⟨"Bob", "1:2"⟩)])], []⟩
    "Architect" ⟨"Bob", "1:2"⟩ 86400 [(86400, ⟨"Bob", "1:2"⟩)]
    (by decide) (by decide) (by decide) (by decide) (by decide) (by decide) (by decide)
    (by decide) (by decide)

/-- Witness for C6: an expired holder is released, the release sticks. -/
theorem C6_witness :
    alookup (title_check_tick 12 100
        ⟨[("General", ⟨some ⟨"Eve", "-", 0⟩, some 0, some 50⟩)], [], []⟩).titles "General"
      = some { holder := none, claim_date := none, expiry_date := none } ∧
    alookup (title_check_tick 12 100 (title_check_tick 12 100
        ⟨[("General", ⟨some ⟨"Eve", "-", 0⟩, some 0, some 50⟩)], [], []⟩)).titles "General"
      = some { holder := none, claim_date := none, expiry_date := none } ∧
    expire_pass 100 (expire_pass 100
        ⟨[("General", ⟨some ⟨"Eve", "-", 0⟩, some 0, some 50⟩)], [], []⟩)
      = expire_pass 100 ⟨[("General", ⟨some ⟨"Eve", "-", 0⟩, some 0, some 50⟩)], [], []⟩ :=
  C6_expiry_release 12 100
    ⟨[("General", ⟨some ⟨"Eve", "-", 0⟩, some 0, some 50⟩)], [], []⟩
    "General" ⟨some ⟨"Eve", "-", 0⟩, some 0, some 50⟩
    (by decide) (by decide) 50 (by decide) (by decide) (by decide)

end Titles
